import Mathlib

/-!
Shallow embedding of the recurring-task generation engine of TaskManagerPRO
(backend/src/services/recurringTaskService.ts, backend/src/index.ts, and the
Task model in backend/src/models/Task.ts).

JavaScript `Date` values are modelled at calendar-day precision as a civil
date (year, 0-based month as in JS `getMonth`, 1-based day-of-month).
`Date.prototype.setDate` overflow normalization is modelled by
`normalizeDate`; `getDay` is modelled through the standard days-from-civil
formula (1970-01-01 was a Thursday, weekday 4).

Mongo ObjectIds are modelled as `Nat`.  The task store (Mongoose `Task`
collection) is a list of tasks plus a fresh-id counter; the notification
collection is a list.  Injected failure flags model storage exceptions:
`saveFails i` means `save()` throws for the task that would receive id `i`,
`notifFails` means the notification save throws, and `countFails i` means the
`countDocuments` query for parent id `i` throws.
-/

namespace TaskManagerPRO

inductive Priority where
  | low | medium | high
deriving Repr, DecidableEq

inductive Status where
  | todo | inProgress | completed
deriving Repr, DecidableEq

inductive RecurringType where
  | daily | weekly | monthly | custom
deriving Repr, DecidableEq

/-- A JS `Date` at day precision: `month` is 0-based (JS convention), `day` 1-based. -/
structure Date where
  year : Int
  month : Nat
  day : Nat
deriving Repr, DecidableEq

def isLeapYear (y : Int) : Bool :=
  (y % 4 == 0 && y % 100 != 0) || (y % 400 == 0)

def daysInMonth (y : Int) (m : Nat) : Nat :=
  if m = 1 then (if isLeapYear y then 29 else 28)
  else if m = 3 ∨ m = 5 ∨ m = 8 ∨ m = 10 then 30
  else 31

theorem daysInMonth_pos (y : Int) (m : Nat) : 0 < daysInMonth y m := by
  unfold daysInMonth
  split
  · split <;> norm_num
  · split <;> norm_num

/-- One fuel-indexed step loop for `setDate` overflow normalization.  Every
month has at least 28 days, so the excess day count shrinks by at least 28
per step; fuel equal to the day count therefore always suffices, and keeping
the recursion structural lets concrete dates evaluate inside the kernel. -/
def normalizeGo : Nat → Int → Nat → Nat → Date
  | 0, y, m, d => ⟨y, m, d⟩
  | fuel + 1, y, m, d =>
      if d ≤ daysInMonth y m then ⟨y, m, d⟩
      else if m = 11 then normalizeGo fuel (y + 1) 0 (d - daysInMonth y m)
      else normalizeGo fuel y (m + 1) (d - daysInMonth y m)

/-- JS `setDate` overflow normalization: a day count past the end of the month
rolls into the following months. -/
def normalizeDate (y : Int) (m : Nat) (d : Nat) : Date :=
  normalizeGo d y m d

/-- JS `d.setDate(d.getDate() + k)` for `k ≥ 0`. -/
def addDays (dt : Date) (k : Nat) : Date :=
  normalizeDate dt.year dt.month (dt.day + k)

/-- JS `d.setMonth(m)` for `m ≥ 0`: year rollover, then day overflow. -/
def setMonthJS (dt : Date) (m : Nat) : Date :=
  normalizeDate (dt.year + (m / 12 : Nat)) (m % 12) dt.day

/-- Days since 1970-01-01 (standard days-from-civil computation). -/
def dayNumber (dt : Date) : Int :=
  let m : Int := (dt.month : Int) + 1
  let y : Int := if m ≤ 2 then dt.year - 1 else dt.year
  let era : Int := y.fdiv 400
  let yoe : Int := y - era * 400
  let mp : Int := (m + 9) % 12
  let doy : Int := (153 * mp + 2).fdiv 5 + (dt.day : Int) - 1
  let doe : Int := yoe * 365 + yoe.fdiv 4 - yoe.fdiv 100 + doy
  era * 146097 + doe - 719468

/-- JS `Date.prototype.getDay`: 0 = Sunday .. 6 = Saturday. -/
def getDay (dt : Date) : Nat :=
  ((dayNumber dt + 4) % 7).toNat

/-- JS `<` on two day-precision dates (timestamp comparison). -/
def dateLt (a b : Date) : Bool :=
  decide (a.year < b.year) ||
    (a.year == b.year &&
      (decide (a.month < b.month) || (a.month == b.month && decide (a.day < b.day))))

/-- The `ITask` document (backend/src/models/Task.ts).  An absent optional
field is `none`; an absent `recurringDays` array is `[]`. -/
structure Task where
  id : Nat
  title : String
  description : String
  dueDate : Date
  priority : Priority
  status : Status
  assignedTo : Nat
  createdBy : Nat
  isRecurring : Bool
  recurringType : Option RecurringType
  recurringInterval : Option Nat
  recurringDays : List Nat
  recurringDate : Option Nat
  recurringEndDate : Option Date
  parentTaskId : Option Nat
deriving Repr, DecidableEq

/-- JS `(task.recurringInterval || 1)`: `undefined` and `0` are falsy. -/
def intervalOrOne (o : Option Nat) : Nat :=
  match o with
  | none => 1
  | some 0 => 1
  | some (n + 1) => n + 1

/-- Translation of `calculateNextDueDate` (recurringTaskService.ts, lines 53-111). -/
def calculateNextDueDate (task : Task) : Date :=
  let currentDueDate := task.dueDate
  match task.recurringType with
  | some .daily => addDays currentDueDate (intervalOrOne task.recurringInterval)
  | some .weekly =>
      if task.recurringDays.length > 0 then
        let currentDayOfWeek := getDay currentDueDate
        let nextDays := task.recurringDays.filter (fun day => decide (currentDayOfWeek < day))
        match nextDays with
        | d :: _ => addDays currentDueDate (d - currentDayOfWeek)
        | [] => addDays currentDueDate (7 - currentDayOfWeek + task.recurringDays.headD 0)
      else
        addDays currentDueDate (intervalOrOne task.recurringInterval * 7)
  | some .monthly =>
      match task.recurringDate with
      | some r =>
          let targetMonth := currentDueDate.month + 1
          let targetYear := currentDueDate.year + (if targetMonth > 11 then 1 else 0)
          let normalizedMonth := targetMonth % 12
          let dim := daysInMonth targetYear normalizedMonth
          ⟨targetYear, normalizedMonth, min r dim⟩
      | none => setMonthJS currentDueDate (currentDueDate.month + intervalOrOne task.recurringInterval)
  | some .custom => addDays currentDueDate (intervalOrOne task.recurringInterval)
  | none => currentDueDate

/-- A persisted notification document (backend/src/index.ts `createNotification`). -/
structure Notification where
  user : Nat
  message : String
  ntype : String
  entityId : Option Nat
deriving Repr, DecidableEq

/-- The persistence layer plus injected failure schedule (see module comment). -/
structure Store where
  tasks : List Task
  nextId : Nat
  notifications : List Notification
  saveFails : Nat → Bool
  notifFails : Bool
  countFails : Nat → Bool

/-- Translation of `createNotification` (backend/src/index.ts, lines 109-129): its own
`try`/`catch` swallows any error and returns `null`, so it never throws into
its caller. -/
def createNotification (st : Store) (userId : Nat) (message : String) (ntype : String)
    (entityId : Option Nat) : Store × Option Notification :=
  if st.notifFails then (st, none)
  else
    let n : Notification := ⟨userId, message, ntype, entityId⟩
    ({ st with notifications := st.notifications ++ [n] }, some n)

/-- The guard `parentTask.recurringEndDate && newDueDate > parentTask.recurringEndDate`
of `createRecurringTaskInstance` (JS `&&` on a possibly-undefined date). -/
def endDateReached (parentTask : Task) : Bool :=
  match parentTask.recurringEndDate with
  | some e => dateLt e (calculateNextDueDate parentTask)
  | none => false

/-- Translation of `createRecurringTaskInstance` (recurringTaskService.ts, lines 8-48).
A `save()` exception is caught by the function's own `catch`, which logs and
returns `null`; in that case nothing was persisted and the notification step
is never reached. -/
def createRecurringTaskInstance (st : Store) (parentTask : Task) : Store × Option Task :=
  let newDueDate := calculateNextDueDate parentTask
  if endDateReached parentTask then
    (st, none)
  else
    let newTaskInstance : Task :=
      { id := st.nextId
        title := parentTask.title
        description := parentTask.description
        dueDate := newDueDate
        priority := parentTask.priority
        status := .todo
        assignedTo := parentTask.assignedTo
        createdBy := parentTask.createdBy
        isRecurring := false
        recurringType := none
        recurringInterval := none
        recurringDays := []
        recurringDate := none
        recurringEndDate := none
        parentTaskId := some parentTask.id }
    if st.saveFails st.nextId then (st, none)
    else
      let st1 := { st with tasks := st.tasks ++ [newTaskInstance], nextId := st.nextId + 1 }
      if newTaskInstance.assignedTo ≠ newTaskInstance.createdBy then
        let p := createNotification st1 newTaskInstance.assignedTo
          ("New recurring task: " ++ newTaskInstance.title) "task_assigned"
          (some newTaskInstance.id)
        (p.1, some newTaskInstance)
      else
        (st1, some newTaskInstance)

/-- Translation of `processCompletedRecurringTasks` (recurringTaskService.ts, lines 117-133):
`Task.find({isRecurring: true, status: completed})` taken as a snapshot,
then one `createRecurringTaskInstance` per result.  The instance creator never
throws (it catches internally), so the loop always reaches every task. -/
def processCompletedRecurringTasks (st : Store) : Store :=
  let completedRecurringTasks :=
    st.tasks.filter (fun t => t.isRecurring && t.status == Status.completed)
  completedRecurringTasks.foldl (fun s t => (createRecurringTaskInstance s t).1) st

/-- Day-precision instance-existence predicate of the upcoming pass: the
`countDocuments` range query `[startOfDay(next), startOfDay(next)+1day)`
restricted to `parentTaskId`. -/
def existsInstanceOnDay (tasks : List Task) (parentId : Nat) (day : Date) : Bool :=
  tasks.any (fun u => u.parentTaskId == some parentId && u.dueDate == day)

/-- Loop body of `generateUpcomingRecurringTasks` over the snapshot of roots.
If the `countDocuments` call throws for a task, the exception reaches the
single pass-level `catch`, so the loop aborts and the remaining roots are
skipped; a failure inside `createRecurringTaskInstance` is swallowed there and
the loop continues. -/
def generateUpcomingLoop (st : Store) (roots : List Task) (createdCount : Nat) : Store × Nat :=
  match roots with
  | [] => (st, createdCount)
  | task :: rest =>
      if st.countFails task.id then (st, createdCount)
      else
        let nextDueDate := calculateNextDueDate task
        if existsInstanceOnDay st.tasks task.id nextDueDate then
          generateUpcomingLoop st rest createdCount
        else
          let p := createRecurringTaskInstance st task
          generateUpcomingLoop p.1 rest (createdCount + (if p.2.isSome then 1 else 0))

/-- Translation of `generateUpcomingRecurringTasks` (recurringTaskService.ts, lines 139-180):
roots are `Task.find({isRecurring: true, parentTaskId: {exists: false}})`;
returns the final store and the logged `createdCount`. -/
def generateUpcomingRecurringTasks (st : Store) : Store × Nat :=
  let recurringTasks :=
    st.tasks.filter (fun t => t.isRecurring && t.parentTaskId == none)
  generateUpcomingLoop st recurringTasks 0

/-- The daily cron body (backend/src/index.ts, lines 131-144): the
completed-parent pass, then the upcoming-root pass.  Each pass swallows its
own errors, so the first never aborts the second. -/
def generationSweep (st : Store) : Store × Nat :=
  let st1 := processCompletedRecurringTasks st
  generateUpcomingRecurringTasks st1

/-! ## General lemmas about the operations -/

/-- Creation either leaves the store untouched and
returns `null`, or appends exactly one fresh instance and returns it. -/
theorem create_cases (s : Store) (r : Task) :
    createRecurringTaskInstance s r = (s, none) ∨
    ∃ s1 nt, createRecurringTaskInstance s r = (s1, some nt) ∧
      s1.tasks = s.tasks ++ [nt] ∧ nt.isRecurring = false ∧ nt.status = Status.todo ∧
      nt.parentTaskId = some r.id ∧ nt.dueDate = calculateNextDueDate r ∧
      s1.saveFails = s.saveFails ∧ s1.countFails = s.countFails ∧
      s1.notifFails = s.notifFails := by
  unfold createRecurringTaskInstance
  by_cases g : endDateReached r
  · left; simp [g]
  · simp only [g, Bool.false_eq_true, if_false]
    by_cases gs : s.saveFails s.nextId
    · left; simp [gs]
    · simp only [gs, Bool.false_eq_true, if_false]
      right
      by_cases ga : r.assignedTo ≠ r.createdBy
      · rw [if_pos ga]
        refine ⟨_, _, rfl, ?_, rfl, rfl, rfl, rfl, ?_, ?_, ?_⟩ <;>
          simp [createNotification] <;> split <;> rfl
      · rw [if_neg ga]
        exact ⟨_, _, rfl, rfl, rfl, rfl, rfl, rfl, rfl, rfl, rfl⟩

/-- If the recurrence end date is already passed, creation is a no-op. -/
theorem create_end (s : Store) (r : Task) (hg : endDateReached r = true) :
    createRecurringTaskInstance s r = (s, none) := by
  unfold createRecurringTaskInstance
  simp [hg]

/-- With a never-failing save and the end date not reached, creation
succeeds and appends the instance for the computed next due date. -/
theorem create_success (s : Store) (r : Task)
    (hsv : s.saveFails = fun _ => false) (hg : endDateReached r = false) :
    ∃ s1 nt, createRecurringTaskInstance s r = (s1, some nt) ∧
      s1.tasks = s.tasks ++ [nt] ∧ nt.isRecurring = false ∧ nt.status = Status.todo ∧
      nt.parentTaskId = some r.id ∧ nt.dueDate = calculateNextDueDate r ∧
      s1.saveFails = s.saveFails ∧ s1.countFails = s.countFails ∧
      s1.notifFails = s.notifFails := by
  rcases create_cases s r with h | h
  · exfalso
    unfold createRecurringTaskInstance at h
    rw [hg] at h
    simp only [Bool.false_eq_true, if_false] at h
    rw [hsv] at h
    simp only [Bool.false_eq_true, if_false] at h
    by_cases ga : r.assignedTo ≠ r.createdBy
    · rw [if_pos ga] at h
      injection h with h1 h2
      exact Option.noConfusion h2
    · rw [if_neg ga] at h
      injection h with h1 h2
      exact Option.noConfusion h2
  · exact h

/-- An instance present among the tasks stays present when the list grows. -/
theorem existsInstanceOnDay_mono (tasks l : List Task) (pid : Nat) (day : Date)
    (h : existsInstanceOnDay tasks pid day = true) :
    existsInstanceOnDay (tasks ++ l) pid day = true := by
  simp only [existsInstanceOnDay, List.any_append, Bool.or_eq_true]
  exact Or.inl h

/-- The completed-parent fold only appends non-recurring `todo` instances and
keeps the failure schedule. -/
theorem foldl_create_app (ts : List Task) :
    ∀ s : Store,
      ∃ l, (ts.foldl (fun s t => (createRecurringTaskInstance s t).1) s).tasks
            = s.tasks ++ l ∧
        (∀ u ∈ l, u.isRecurring = false ∧ u.status = Status.todo) ∧
        (ts.foldl (fun s t => (createRecurringTaskInstance s t).1) s).saveFails = s.saveFails ∧
        (ts.foldl (fun s t => (createRecurringTaskInstance s t).1) s).countFails = s.countFails ∧
        (ts.foldl (fun s t => (createRecurringTaskInstance s t).1) s).notifFails = s.notifFails := by
  induction ts with
  | nil => intro s; exact ⟨[], by simp, by simp, rfl, rfl, rfl⟩
  | cons t ts ih =>
      intro s
      rcases create_cases s t with h | ⟨s1, nt, h, hts, hrec, hst, _, _, hsv, hcf, hnf⟩
      · obtain ⟨l, hl, hmem, h1, h2, h3⟩ := ih s
        exact ⟨l, by simp only [List.foldl_cons, h]; exact hl, hmem,
          by simp only [List.foldl_cons, h]; exact h1,
          by simp only [List.foldl_cons, h]; exact h2,
          by simp only [List.foldl_cons, h]; exact h3⟩
      · obtain ⟨l, hl, hmem, h1, h2, h3⟩ := ih s1
        refine ⟨nt :: l, ?_, ?_, ?_, ?_, ?_⟩
        · simp only [List.foldl_cons, h, hl, hts, List.append_assoc, List.singleton_append]
        · intro u hu
          rcases List.mem_cons.mp hu with rfl | hu
          · exact ⟨hrec, hst⟩
          · exact hmem u hu
        · simp only [List.foldl_cons, h, h1, hsv]
        · simp only [List.foldl_cons, h, h2, hcf]
        · simp only [List.foldl_cons, h, h3, hnf]

/-- The upcoming-root loop only appends non-recurring `todo` instances and
keeps the failure schedule. -/
theorem upcomingLoop_app (roots : List Task) :
    ∀ (s : Store) (c : Nat),
      ∃ l, (generateUpcomingLoop s roots c).1.tasks = s.tasks ++ l ∧
        (∀ u ∈ l, u.isRecurring = false ∧ u.status = Status.todo) ∧
        (generateUpcomingLoop s roots c).1.saveFails = s.saveFails ∧
        (generateUpcomingLoop s roots c).1.countFails = s.countFails ∧
        (generateUpcomingLoop s roots c).1.notifFails = s.notifFails := by
  induction roots with
  | nil => intro s c; exact ⟨[], by simp [generateUpcomingLoop], by simp, rfl, rfl, rfl⟩
  | cons r rest ih =>
      intro s c
      by_cases hcnt : s.countFails r.id
      · exact ⟨[], by simp [generateUpcomingLoop, hcnt], by simp,
          by simp [generateUpcomingLoop, hcnt],
          by simp [generateUpcomingLoop, hcnt],
          by simp [generateUpcomingLoop, hcnt]⟩
      · by_cases hex : existsInstanceOnDay s.tasks r.id (calculateNextDueDate r)
        · obtain ⟨l, hl, hmem, h1, h2, h3⟩ := ih s c
          exact ⟨l, by simp only [generateUpcomingLoop, hcnt, Bool.false_eq_true,
              if_false, hex, if_true]; exact hl, hmem,
            by simp only [generateUpcomingLoop, hcnt, Bool.false_eq_true, if_false,
              hex, if_true]; exact h1,
            by simp only [generateUpcomingLoop, hcnt, Bool.false_eq_true, if_false,
              hex, if_true]; exact h2,
            by simp only [generateUpcomingLoop, hcnt, Bool.false_eq_true, if_false,
              hex, if_true]; exact h3⟩
        · rcases create_cases s r with h | ⟨s1, nt, h, hts, hrec, hst, _, _, hsv, hcf, hnf⟩
          · obtain ⟨l, hl, hmem, h1, h2, h3⟩ := ih s (c + 0)
            refine ⟨l, ?_, hmem, ?_, ?_, ?_⟩ <;>
              simp only [generateUpcomingLoop, hcnt, Bool.false_eq_true, if_false,
                hex, h, Option.isSome_none, Nat.add_zero] at hl h1 h2 h3 ⊢ <;>
              assumption
          · obtain ⟨l, hl, hmem, h1, h2, h3⟩ := ih s1 (c + 1)
            refine ⟨nt :: l, ?_, ?_, ?_, ?_, ?_⟩
            · simp only [generateUpcomingLoop, hcnt, Bool.false_eq_true, if_false, hex,
                h, Option.isSome_some, if_true]
              rw [hl, hts]
              simp
            · intro u hu
              rcases List.mem_cons.mp hu with rfl | hu
              · exact ⟨hrec, hst⟩
              · exact hmem u hu
            · simp only [generateUpcomingLoop, hcnt, Bool.false_eq_true, if_false, hex,
                h, Option.isSome_some, if_true]
              rw [h1, hsv]
            · simp only [generateUpcomingLoop, hcnt, Bool.false_eq_true, if_false, hex,
                h, Option.isSome_some, if_true]
              rw [h2, hcf]
            · simp only [generateUpcomingLoop, hcnt, Bool.false_eq_true, if_false, hex,
                h, Option.isSome_some, if_true]
              rw [h3, hnf]

/-- After one upcoming-root run with a never-failing store, every processed
root either has an instance on its computed next day or its series end date
is passed. -/
theorem upcomingLoop_post (roots : List Task) :
    ∀ (s : Store) (c : Nat),
      s.saveFails = (fun _ => false) →
      s.countFails = (fun _ => false) →
      ∀ r ∈ roots,
        existsInstanceOnDay (generateUpcomingLoop s roots c).1.tasks r.id
          (calculateNextDueDate r) = true ∨
        endDateReached r = true := by
  induction roots with
  | nil => intro s c _ _ r hr; exact absurd hr (List.not_mem_nil r)
  | cons r0 rest ih =>
      intro s c hsv hcf r hr
      have hcnt : s.countFails r0.id = false := by rw [hcf]
      by_cases hex : existsInstanceOnDay s.tasks r0.id (calculateNextDueDate r0)
      · have hstep : generateUpcomingLoop s (r0 :: rest) c = generateUpcomingLoop s rest c := by
          simp [generateUpcomingLoop, hcnt, hex]
        rcases List.mem_cons.mp hr with rfl | hr
        · left
          rw [hstep]
          obtain ⟨l, hl, -, -, -, -⟩ := upcomingLoop_app rest s c
          rw [hl]
          exact existsInstanceOnDay_mono _ _ _ _ hex
        · rw [hstep]
          exact ih s c hsv hcf r hr
      · by_cases hend : endDateReached r0
        · have hcr : createRecurringTaskInstance s r0 = (s, none) := create_end s r0 hend
          have hstep : generateUpcomingLoop s (r0 :: rest) c
              = generateUpcomingLoop s rest c := by
            simp [generateUpcomingLoop, hcnt, hex, hcr]
          rcases List.mem_cons.mp hr with rfl | hr
          · exact Or.inr hend
          · rw [hstep]
            exact ih s c hsv hcf r hr
        · obtain ⟨s1, nt, hcr, hts, -, -, hpid, hdue, hsv1, hcf1, -⟩ :=
            create_success s r0 hsv (by simpa using hend)
          have hstep : generateUpcomingLoop s (r0 :: rest) c
              = generateUpcomingLoop s1 rest (c + 1) := by
            simp [generateUpcomingLoop, hcnt, hex, hcr]
          have hsv1' : s1.saveFails = (fun _ => false) := by rw [hsv1, hsv]
          have hcf1' : s1.countFails = (fun _ => false) := by rw [hcf1, hcf]
          rcases List.mem_cons.mp hr with rfl | hr
          · left
            rw [hstep]
            obtain ⟨l, hl, -, -, -, -⟩ := upcomingLoop_app rest s1 (c + 1)
            rw [hl]
            apply existsInstanceOnDay_mono
            rw [hts]
            simp [existsInstanceOnDay, List.any_append, hpid, hdue]
          · rw [hstep]
            exact ih s1 (c + 1) hsv1' hcf1' r hr

/-- If every root in the list is already covered for its computed day or has
its end date passed, the upcoming-root loop changes nothing and counts 0. -/
theorem upcomingLoop_noop (roots : List Task) :
    ∀ (s : Store) (c : Nat),
      s.countFails = (fun _ => false) →
      (∀ r ∈ roots,
        existsInstanceOnDay s.tasks r.id (calculateNextDueDate r) = true ∨
        endDateReached r = true) →
      generateUpcomingLoop s roots c = (s, c) := by
  induction roots with
  | nil => intro s c _ _; simp [generateUpcomingLoop]
  | cons r0 rest ih =>
      intro s c hcf hcov
      have hcnt : s.countFails r0.id = false := by rw [hcf]
      by_cases hex : existsInstanceOnDay s.tasks r0.id (calculateNextDueDate r0)
      · have : generateUpcomingLoop s (r0 :: rest) c = generateUpcomingLoop s rest c := by
          simp [generateUpcomingLoop, hcnt, hex]
        rw [this]
        exact ih s c hcf (fun r hr => hcov r (List.mem_cons_of_mem r0 hr))
      · have hend : endDateReached r0 = true := by
          rcases hcov r0 (List.mem_cons_self r0 rest) with h | h
          · exact absurd h hex
          · exact h
        have hcr : createRecurringTaskInstance s r0 = (s, none) := create_end s r0 hend
        have : generateUpcomingLoop s (r0 :: rest) c = generateUpcomingLoop s rest c := by
          simp [generateUpcomingLoop, hcnt, hex, hcr]
        rw [this]
        exact ih s c hcf (fun r hr => hcov r (List.mem_cons_of_mem r0 hr))

/-! ## Concrete fixtures for witnesses and counterexamples -/

/-- A plain template task used to build concrete examples. -/
def baseTask : Task :=
  { id := 1, title := "report", description := "weekly report"
    dueDate := ⟨2024, 0, 1⟩, priority := .medium, status := .todo
    assignedTo := 2, createdBy := 3, isRecurring := true
    recurringType := none, recurringInterval := none, recurringDays := []
    recurringDate := none, recurringEndDate := none, parentTaskId := none }

def emptyStore : Store :=
  { tasks := [], nextId := 10, notifications := []
    saveFails := fun _ => false, notifFails := false, countFails := fun _ => false }

/-- Monthly task due January 15, 2024 with day-of-month 31. -/
def januaryTask : Task :=
  { baseTask with recurringType := some .monthly, recurringDate := some 31
                  dueDate := ⟨2024, 0, 15⟩ }

/-- Daily task with no stored interval. -/
def dailyNoIntervalTask : Task :=
  { baseTask with recurringType := some .daily }

/-- Recurring-flagged task whose `recurringType` was never set. -/
def noTypeTask : Task :=
  { baseTask with recurringType := none }

/-- Weekly Mon/Wed/Fri task due Wednesday, January 3, 2024. -/
def wednesdayTask : Task :=
  { baseTask with recurringType := some .weekly, recurringDays := [1, 3, 5]
                  dueDate := ⟨2024, 0, 3⟩ }

/-- Weekly Mon/Thu task whose recurrence ended on January 2, 2024. -/
def endedTask : Task :=
  { baseTask with recurringType := some .weekly, recurringDays := [1, 4]
                  recurringEndDate := some ⟨2024, 0, 2⟩ }

/-- The store produced by creating an instance of `dailyNoIntervalTask` in
`emptyStore`. -/
def notifiedStore : Store :=
  (createRecurringTaskInstance emptyStore dailyNoIntervalTask).1

/-- The instance that creation produces for `dailyNoIntervalTask`. -/
def createdInstance : Task :=
  { id := 10, title := "report", description := "weekly report"
    dueDate := ⟨2024, 0, 2⟩, priority := .medium, status := .todo
    assignedTo := 2, createdBy := 3, isRecurring := false
    recurringType := none, recurringInterval := none, recurringDays := []
    recurringDate := none, recurringEndDate := none, parentTaskId := some 1 }

/-- Weekly Mon/Thu root due Monday, January 1, 2024 (the spec's end-to-end
scenario root). -/
def weeklyRoot : Task :=
  { baseTask with recurringType := some .weekly, recurringDays := [1, 4] }

def weeklyRootStore : Store :=
  { emptyStore with tasks := [weeklyRoot] }

/-- The same weekly root, but already marked completed by its user. -/
def completedRoot : Task :=
  { weeklyRoot with status := .completed }

def completedRootStore : Store :=
  { emptyStore with tasks := [completedRoot] }

/-- Store state after the first sweep of the end-to-end scenario. -/
def afterFirstSweep : Store :=
  (generationSweep weeklyRootStore).1

/-- The scenario's intervening user action: the generated instance (id 10)
is marked completed. -/
def afterInstanceCompleted : Store :=
  { afterFirstSweep with
    tasks := afterFirstSweep.tasks.map
      (fun t => if t.id == 10 then { t with status := Status.completed } else t) }

/-- Two daily roots used for the pass-abort scenario. -/
def dailyRootOne : Task :=
  { baseTask with id := 1, recurringType := some .daily }

def dailyRootTwo : Task :=
  { baseTask with id := 2, recurringType := some .daily }

/-- The existence-check query throws for root 1 only. -/
def countFailStore : Store :=
  { tasks := [dailyRootOne, dailyRootTwo], nextId := 10, notifications := []
    saveFails := fun _ => false, notifFails := false, countFails := fun i => i == 1 }

/-- The same two roots with a fully healthy storage layer. -/
def healthyStore : Store :=
  { tasks := [dailyRootOne, dailyRootTwo], nextId := 10, notifications := []
    saveFails := fun _ => false, notifFails := false, countFails := fun _ => false }

/-- One-root store for the frame-property witness. -/
def singleRootStore : Store :=
  { emptyStore with tasks := [dailyNoIntervalTask] }

/-! ## Claim theorems -/

/-- C4: for a `monthly` task with `recurrenceDayOfMonth` (source field
`recurringDate`) set, `nextDueDate` lands in the calendar month immediately
following the current due date's month, rolling the year over after December,
with day-of-month `min(recurrenceDayOfMonth, daysInThatMonth)`. -/
theorem claim_C4_monthly_clamped (t : Task) (r : Nat)
    (hty : t.recurringType = some RecurringType.monthly)
    (hr : t.recurringDate = some r)
    (hm : t.dueDate.month ≤ 11) :
    ((calculateNextDueDate t).day
        = min r (daysInMonth (calculateNextDueDate t).year (calculateNextDueDate t).month)) ∧
    (t.dueDate.month < 11 →
      (calculateNextDueDate t).year = t.dueDate.year ∧
      (calculateNextDueDate t).month = t.dueDate.month + 1) ∧
    (t.dueDate.month = 11 →
      (calculateNextDueDate t).year = t.dueDate.year + 1 ∧
      (calculateNextDueDate t).month = 0) := by
  simp only [calculateNextDueDate, hty, hr]
  by_cases h11 : t.dueDate.month = 11
  · simp only [h11]
    norm_num
  · have hlt : t.dueDate.month < 11 := by omega
    have hgt : ¬ t.dueDate.month + 1 > 11 := by omega
    have hmod : (t.dueDate.month + 1) % 12 = t.dueDate.month + 1 :=
      Nat.mod_eq_of_lt (by omega)
    simp only [if_neg hgt, hmod]
    norm_num
    omega

/-- C4 witness: `recurrenceDayOfMonth = 31` from a January 2024 due date
yields February 29 (2024 is a leap year). -/
theorem claim_C4_monthly_clamped_witness :
    ((januaryTask.recurringType = some RecurringType.monthly) ∧
      januaryTask.recurringDate = some 31 ∧ januaryTask.dueDate.month ≤ 11) ∧
    (((calculateNextDueDate januaryTask).day
        = min 31 (daysInMonth (calculateNextDueDate januaryTask).year
            (calculateNextDueDate januaryTask).month)) ∧
      (januaryTask.dueDate.month < 11 →
        (calculateNextDueDate januaryTask).year = januaryTask.dueDate.year ∧
        (calculateNextDueDate januaryTask).month = januaryTask.dueDate.month + 1) ∧
      (januaryTask.dueDate.month = 11 →
        (calculateNextDueDate januaryTask).year = januaryTask.dueDate.year + 1 ∧
        (calculateNextDueDate januaryTask).month = 0)) ∧
    calculateNextDueDate januaryTask = ⟨2024, 1, 29⟩ :=
  ⟨by decide, claim_C4_monthly_clamped januaryTask 31 rfl rfl (by decide), by decide⟩

/-- C6: `nextDueDate` is a total pure function of the task (it is a Lean
`def` into `Date`, so totality and absence of mutation hold by construction),
and an unset or falsy-zero `recurrenceInterval` behaves exactly like
interval 1 for every recurrence type. -/
theorem claim_C6_interval_defaults (t : Task)
    (h : t.recurringInterval = none ∨ t.recurringInterval = some 0) :
    calculateNextDueDate t = calculateNextDueDate { t with recurringInterval := some 1 } := by
  have hi : intervalOrOne t.recurringInterval = intervalOrOne (some 1) := by
    rcases h with h | h <;> simp [h, intervalOrOne]
  simp only [calculateNextDueDate, hi]

/-- C6 witness: a daily task with unset interval advances like interval 1. -/
theorem claim_C6_interval_defaults_witness :
    (dailyNoIntervalTask.recurringInterval = none ∨
      dailyNoIntervalTask.recurringInterval = some 0) ∧
    calculateNextDueDate dailyNoIntervalTask
      = calculateNextDueDate { dailyNoIntervalTask with recurringInterval := some 1 } :=
  ⟨Or.inl rfl, claim_C6_interval_defaults dailyNoIntervalTask (Or.inl rfl)⟩

/-- C10: with `recurringType` absent (the `switch` falls through every case),
`nextDueDate` returns the current due date unchanged, and an instance created
from such a parent carries the same due date as the parent. -/
theorem claim_C10_no_type_keeps_due (t : Task) (st : Store)
    (h : t.recurringType = none) :
    calculateNextDueDate t = t.dueDate ∧
    (∀ st' u, createRecurringTaskInstance st t = (st', some u) → u.dueDate = t.dueDate) := by
  have hcalc : calculateNextDueDate t = t.dueDate := by
    simp [calculateNextDueDate, h]
  refine ⟨hcalc, ?_⟩
  intro st' u hu
  unfold createRecurringTaskInstance at hu
  by_cases g : endDateReached t
  · simp [g] at hu
  · simp only [g, if_false, Bool.false_eq_true] at hu
    by_cases gs : st.saveFails st.nextId
    · simp [gs] at hu
    · simp only [gs, if_false, Bool.false_eq_true] at hu
      by_cases ga : t.assignedTo ≠ t.createdBy
      · simp only [if_pos ga] at hu
        injection hu with h1 h2
        injection h2 with h2
        rw [← h2]
        exact hcalc
      · simp only [if_neg ga] at hu
        injection hu with h1 h2
        injection h2 with h2
        rw [← h2]
        exact hcalc

/-- C10 witness: a parent without a recurrence type produces an instance due
on the parent's own due date. -/
theorem claim_C10_no_type_keeps_due_witness :
    noTypeTask.recurringType = none ∧
    calculateNextDueDate noTypeTask = noTypeTask.dueDate :=
  ⟨rfl, (claim_C10_no_type_keeps_due noTypeTask emptyStore rfl).1⟩

/-- C3: for a `weekly` task whose `recurrenceDays` set (modelled as a
strictly ascending list, the canonical representation of a set of weekday
indices, and the order in which the frontend collects the checkboxes) is
non-empty, `nextDueDate` advances by `m - wd` days to the smallest member `m`
strictly greater than the current weekday `wd` when one exists, and otherwise
wraps forward by `7 - wd + m₀` days where `m₀` is the smallest member. -/
theorem claim_C3_weekly_smallest_day (t : Task)
    (hty : t.recurringType = some RecurringType.weekly)
    (hne : t.recurringDays ≠ [])
    (hsorted : t.recurringDays.Sorted (· < ·)) :
    (∃ m, m ∈ t.recurringDays ∧ getDay t.dueDate < m ∧
        (∀ d ∈ t.recurringDays, getDay t.dueDate < d → m ≤ d) ∧
        calculateNextDueDate t = addDays t.dueDate (m - getDay t.dueDate)) ∨
    ((∀ d ∈ t.recurringDays, d ≤ getDay t.dueDate) ∧
      ∃ m, m ∈ t.recurringDays ∧ (∀ d ∈ t.recurringDays, m ≤ d) ∧
        calculateNextDueDate t = addDays t.dueDate (7 - getDay t.dueDate + m)) := by
  have hlen : t.recurringDays.length > 0 := List.length_pos.mpr hne
  simp only [calculateNextDueDate, hty, if_pos hlen]
  cases hf : t.recurringDays.filter (fun day => decide (getDay t.dueDate < day)) with
  | cons m rest =>
      left
      have hmem : m ∈ t.recurringDays.filter (fun day => decide (getDay t.dueDate < day)) := by
        rw [hf]; exact List.mem_cons_self m rest
      have hm := List.mem_filter.mp hmem
      have hmgt : getDay t.dueDate < m := by simpa using hm.2
      refine ⟨m, hm.1, hmgt, ?_, rfl⟩
      intro d hd hdgt
      have hdf : d ∈ t.recurringDays.filter (fun day => decide (getDay t.dueDate < day)) :=
        List.mem_filter.mpr ⟨hd, by simpa using hdgt⟩
      rw [hf] at hdf
      rcases List.mem_cons.mp hdf with h | h
      · omega
      · have hsf := hsorted.filter (fun day => decide (getDay t.dueDate < day))
        rw [hf] at hsf
        exact le_of_lt (List.rel_of_sorted_cons hsf d h)
  | nil =>
      right
      have hall : ∀ d ∈ t.recurringDays, d ≤ getDay t.dueDate := by
        intro d hd
        have := List.filter_eq_nil_iff.mp hf d hd
        simp at this
        omega
      obtain ⟨a, l, hal⟩ := List.exists_cons_of_ne_nil hne
      refine ⟨hall, a, ?_, ?_, ?_⟩
      · rw [hal]; exact List.mem_cons_self a l
      · intro d hd
        rw [hal] at hd
        rcases List.mem_cons.mp hd with h | h
        · omega
        · rw [hal] at hsorted
          exact le_of_lt (List.rel_of_sorted_cons hsorted d h)
      · simp only [hal, List.headD_cons]

/-- C3 witness: with days `{1,3,5}` (Mon/Wed/Fri) from Wednesday 2024-01-03
the result is +2 days (Friday 2024-01-05). -/
theorem claim_C3_weekly_smallest_day_witness :
    (wednesdayTask.recurringType = some RecurringType.weekly ∧
      wednesdayTask.recurringDays ≠ [] ∧
      wednesdayTask.recurringDays.Sorted (· < ·)) ∧
    ((∃ m, m ∈ wednesdayTask.recurringDays ∧ getDay wednesdayTask.dueDate < m ∧
        (∀ d ∈ wednesdayTask.recurringDays, getDay wednesdayTask.dueDate < d → m ≤ d) ∧
        calculateNextDueDate wednesdayTask
          = addDays wednesdayTask.dueDate (m - getDay wednesdayTask.dueDate)) ∨
      ((∀ d ∈ wednesdayTask.recurringDays, d ≤ getDay wednesdayTask.dueDate) ∧
        ∃ m, m ∈ wednesdayTask.recurringDays ∧ (∀ d ∈ wednesdayTask.recurringDays, m ≤ d) ∧
          calculateNextDueDate wednesdayTask
            = addDays wednesdayTask.dueDate (7 - getDay wednesdayTask.dueDate + m))) ∧
    calculateNextDueDate wednesdayTask = ⟨2024, 0, 5⟩ :=
  ⟨⟨rfl, by decide, by decide⟩,
    claim_C3_weekly_smallest_day wednesdayTask rfl (by decide) (by decide),
    by decide⟩

/-- C5: when `recurrenceEndDate` is set and the computed next due date lies
strictly beyond it, `createRecurringTaskInstance` returns `null` with the
store untouched, and in every case no newly persisted instance has a due
date strictly beyond the end date. -/
theorem claim_C5_end_date_bound (st : Store) (t : Task) (e : Date)
    (he : t.recurringEndDate = some e) :
    (dateLt e (calculateNextDueDate t) = true → createRecurringTaskInstance st t = (st, none)) ∧
    (∀ u ∈ (createRecurringTaskInstance st t).1.tasks,
      u ∉ st.tasks → dateLt e u.dueDate = false) := by
  have hguard : endDateReached t = dateLt e (calculateNextDueDate t) := by
    simp [endDateReached, he]
  constructor
  · intro hlt
    unfold createRecurringTaskInstance
    rw [hguard, hlt]
    simp
  · intro u hu hnotin
    by_cases g : endDateReached t
    · unfold createRecurringTaskInstance at hu
      rw [g] at hu
      simp at hu
      exact absurd hu hnotin
    · rw [Bool.not_eq_true] at g
      have hfalse : dateLt e (calculateNextDueDate t) = false := hguard ▸ g
      unfold createRecurringTaskInstance at hu
      rw [g] at hu
      simp only [Bool.false_eq_true, if_false] at hu
      by_cases gs : st.saveFails st.nextId
      · rw [if_pos gs] at hu
        exact absurd hu hnotin
      · rw [if_neg gs] at hu
        by_cases ga : t.assignedTo ≠ t.createdBy
        · rw [if_pos ga] at hu
          simp only [createNotification] at hu
          by_cases gn : st.notifFails
          · rw [if_pos gn] at hu
            rcases List.mem_append.mp hu with h | h
            · exact absurd h hnotin
            · have : u.dueDate = calculateNextDueDate t := by
                rcases List.mem_singleton.mp h with rfl
                rfl
              rw [this]; exact hfalse
          · rw [if_neg gn] at hu
            rcases List.mem_append.mp hu with h | h
            · exact absurd h hnotin
            · have : u.dueDate = calculateNextDueDate t := by
                rcases List.mem_singleton.mp h with rfl
                rfl
              rw [this]; exact hfalse
        · rw [if_neg ga] at hu
          rcases List.mem_append.mp hu with h | h
          · exact absurd h hnotin
          · have : u.dueDate = calculateNextDueDate t := by
              rcases List.mem_singleton.mp h with rfl
              rfl
            rw [this]; exact hfalse

/-- C5 witness: a root whose series ended (end date 2024-01-02, next
occurrence 2024-01-04) produces nothing and the store is returned as is. -/
theorem claim_C5_end_date_bound_witness :
    (endedTask.recurringEndDate = some ⟨2024, 0, 2⟩ ∧
      dateLt ⟨2024, 0, 2⟩ (calculateNextDueDate endedTask) = true) ∧
    createRecurringTaskInstance emptyStore endedTask = (emptyStore, none) :=
  ⟨⟨rfl, by decide⟩,
    (claim_C5_end_date_bound emptyStore endedTask ⟨2024, 0, 2⟩ rfl).1 (by decide)⟩

/-- C8: after a persisted instance, the assignment notification is recorded
exactly when `assignedTo` differs from `createdBy` (with a working
notification channel), and a notification-save failure changes neither the
value `createRecurringTaskInstance` returns nor the persisted tasks, because
`createNotification` swallows its own errors. -/
theorem claim_C8_notification (st : Store) (p : Task) :
    (∀ st' u, st.notifFails = false →
      createRecurringTaskInstance st p = (st', some u) →
        ((u.assignedTo ≠ u.createdBy →
            st'.notifications = st.notifications ++
              [⟨u.assignedTo, "New recurring task: " ++ u.title, "task_assigned", some u.id⟩]) ∧
         (u.assignedTo = u.createdBy → st'.notifications = st.notifications))) ∧
    ((createRecurringTaskInstance { st with notifFails := true } p).2
        = (createRecurringTaskInstance { st with notifFails := false } p).2 ∧
     (createRecurringTaskInstance { st with notifFails := true } p).1.tasks
        = (createRecurringTaskInstance { st with notifFails := false } p).1.tasks) := by
  constructor
  · intro st' u hnf hu
    unfold createRecurringTaskInstance at hu
    by_cases g : endDateReached p
    · simp [g] at hu
    · simp only [g, Bool.false_eq_true, if_false] at hu
      by_cases gs : st.saveFails st.nextId
      · simp [gs] at hu
      · simp only [gs, Bool.false_eq_true, if_false] at hu
        by_cases ga : p.assignedTo ≠ p.createdBy
        · rw [if_pos ga] at hu
          simp only [createNotification, hnf, Bool.false_eq_true, if_false] at hu
          injection hu with h1 h2
          injection h2 with h2
          subst h2
          rw [← h1]
          exact ⟨fun _ => rfl, fun hEq => absurd hEq ga⟩
        · rw [if_neg ga] at hu
          injection hu with h1 h2
          injection h2 with h2
          subst h2
          rw [← h1]
          push_neg at ga
          exact ⟨fun hne => absurd ga hne, fun _ => rfl⟩
  · unfold createRecurringTaskInstance
    by_cases g : endDateReached p
    · simp [g]
    · simp only [g, Bool.false_eq_true, if_false]
      by_cases gs : st.saveFails st.nextId
      · simp [gs]
      · simp only [gs, Bool.false_eq_true, if_false]
        by_cases ga : p.assignedTo ≠ p.createdBy
        · simp [if_pos ga, createNotification]
        · simp [if_neg ga]

/-- C8 witness: assignee 2 differs from creator 3, so the instance creation
records exactly one `task_assigned` notification for the assignee. -/
theorem claim_C8_notification_witness :
    (emptyStore.notifFails = false ∧
      createRecurringTaskInstance emptyStore dailyNoIntervalTask
        = (notifiedStore, some createdInstance)) ∧
    ((createdInstance.assignedTo ≠ createdInstance.createdBy →
        notifiedStore.notifications = emptyStore.notifications ++
          [⟨createdInstance.assignedTo, "New recurring task: " ++ createdInstance.title,
            "task_assigned", some createdInstance.id⟩]) ∧
     (createdInstance.assignedTo = createdInstance.createdBy →
        notifiedStore.notifications = emptyStore.notifications)) :=
  ⟨⟨rfl, rfl⟩,
    (claim_C8_notification emptyStore dailyNoIntervalTask).1 notifiedStore createdInstance
      rfl rfl⟩

/-- C1 counterexample: with a completed recurring root, the completed-parent
pass has no per-day existence check, so two successive sweeps with no
intervening task change persist two instances for the same
`(parentId, calendar day)` — the second run does create an instance, and the
at-most-one invariant fails in a reachable state. -/
theorem claim_C1_counterexample :
    ((generationSweep completedRootStore).1.tasks.filter
        (fun u => u.parentTaskId == some 1 && u.dueDate == ⟨2024, 0, 4⟩)).length = 1 ∧
    ((generationSweep (generationSweep completedRootStore).1).1.tasks.filter
        (fun u => u.parentTaskId == some 1 && u.dueDate == ⟨2024, 0, 4⟩)).length = 2 := by
  decide

/-- C1 (amended): on a store with no completed recurring task and a
never-failing storage layer, the sweep is idempotent — the second of two
successive runs creates 0 instances and leaves the task list unchanged.
(The completed-parent pass breaks this whenever a completed recurring root
exists, as the counterexample shows.) -/
theorem claim_C1_sweep_idempotent_no_completed_root (st : Store)
    (hclean : ∀ t ∈ st.tasks, t.isRecurring = true → t.status ≠ Status.completed)
    (hsv : st.saveFails = fun _ => false)
    (hcf : st.countFails = fun _ => false) :
    (generationSweep (generationSweep st).1).2 = 0 ∧
    (generationSweep (generationSweep st).1).1.tasks = (generationSweep st).1.tasks := by
  have hfilter : st.tasks.filter (fun t => t.isRecurring && t.status == Status.completed)
      = [] := by
    apply List.filter_eq_nil_iff.mpr
    intro t ht
    simp only [Bool.and_eq_true, beq_iff_eq, not_and]
    exact hclean t ht
  have hpc : processCompletedRecurringTasks st = st := by
    unfold processCompletedRecurringTasks
    rw [hfilter]
    rfl
  have hsweep1 : generationSweep st
      = generateUpcomingLoop st
          (st.tasks.filter (fun t => t.isRecurring && t.parentTaskId == none)) 0 := by
    unfold generationSweep
    rw [hpc]
    rfl
  obtain ⟨l, hl, hmem, hsv1, hcf1, -⟩ :=
    upcomingLoop_app (st.tasks.filter (fun t => t.isRecurring && t.parentTaskId == none)) st 0
  have hpost :=
    upcomingLoop_post (st.tasks.filter (fun t => t.isRecurring && t.parentTaskId == none))
      st 0 hsv hcf
  set st1 :=
    (generateUpcomingLoop st
      (st.tasks.filter (fun t => t.isRecurring && t.parentTaskId == none)) 0).1 with hst1
  have hfilter1 : st1.tasks.filter (fun t => t.isRecurring && t.status == Status.completed)
      = [] := by
    apply List.filter_eq_nil_iff.mpr
    intro t ht
    rw [hl] at ht
    rcases List.mem_append.mp ht with h | h
    · simp only [Bool.and_eq_true, beq_iff_eq, not_and]
      exact hclean t h
    · have := (hmem t h).1
      simp [this]
  have hpc1 : processCompletedRecurringTasks st1 = st1 := by
    unfold processCompletedRecurringTasks
    rw [hfilter1]
    rfl
  have hroots1 : st1.tasks.filter (fun t => t.isRecurring && t.parentTaskId == none)
      = st.tasks.filter (fun t => t.isRecurring && t.parentTaskId == none) := by
    rw [hl, List.filter_append]
    have : l.filter (fun t => t.isRecurring && t.parentTaskId == none) = [] := by
      apply List.filter_eq_nil_iff.mpr
      intro t ht
      have := (hmem t ht).1
      simp [this]
    rw [this, List.append_nil]
  have hcf1' : st1.countFails = fun _ => false := by rw [hcf1, hcf]
  have hnoop : generateUpcomingLoop st1
      (st.tasks.filter (fun t => t.isRecurring && t.parentTaskId == none)) 0
      = (st1, 0) :=
    upcomingLoop_noop _ st1 0 hcf1' hpost
  have hsweep2 : generationSweep st1 = (st1, 0) := by
    unfold generationSweep
    rw [hpc1]
    show generateUpcomingLoop st1
        (st1.tasks.filter (fun t => t.isRecurring && t.parentTaskId == none)) 0 = (st1, 0)
    rw [hroots1]
    exact hnoop
  have h1 : (generationSweep st).1 = st1 := by rw [hsweep1]
  rw [h1, hsweep2]
  exact ⟨rfl, rfl⟩

/-- C1 amended witness: a store holding a single `todo` weekly root — the
second sweep creates nothing and leaves the tasks as after the first. -/
theorem claim_C1_sweep_idempotent_witness :
    (∀ t ∈ weeklyRootStore.tasks, t.isRecurring = true → t.status ≠ Status.completed) ∧
    ((generationSweep (generationSweep weeklyRootStore).1).2 = 0 ∧
      (generationSweep (generationSweep weeklyRootStore).1).1.tasks
        = (generationSweep weeklyRootStore).1.tasks) :=
  ⟨by decide,
    claim_C1_sweep_idempotent_no_completed_root weeklyRootStore (by decide) rfl rfl⟩

/-- C2 counterexample: the scenario's first half holds (the first sweep
creates the Thursday 2024-01-04 instance), but after that instance is marked
completed the next sweep creates nothing at all — no 2024-01-08 instance is
ever produced, because only roots drive generation and the root's own due
date never advances. -/
theorem claim_C2_counterexample :
    (generationSweep weeklyRootStore).2 = 1 ∧
    (afterFirstSweep.tasks.any
      (fun u => u.parentTaskId == some 1 && u.dueDate == ⟨2024, 0, 4⟩)) = true ∧
    (generationSweep afterInstanceCompleted).2 = 0 ∧
    ((generationSweep afterInstanceCompleted).1.tasks.any
      (fun u => u.dueDate == ⟨2024, 0, 8⟩)) = false := by
  decide

/-- C2 (amended): from the scenario root the first sweep creates exactly one
instance, a `todo` task due Thursday 2024-01-04; after that instance is set
to completed, the next sweep run creates no instance (`created` is 0 and the
task list is unchanged — in particular no 2024-01-08 instance appears). -/
theorem claim_C2_first_sweep_only :
    (generationSweep weeklyRootStore).2 = 1 ∧
    (afterFirstSweep.tasks.filter (fun u => u.parentTaskId == some 1)).length = 1 ∧
    (afterFirstSweep.tasks.filter
      (fun u => u.parentTaskId == some 1 && u.dueDate == ⟨2024, 0, 4⟩
        && u.status == Status.todo)).length = 1 ∧
    (generationSweep afterInstanceCompleted).2 = 0 ∧
    (generationSweep afterInstanceCompleted).1.tasks = afterInstanceCompleted.tasks := by
  decide

/-- C7 counterexample: a `countDocuments` failure while processing root 1
aborts the whole upcoming pass — root 2 (whose own storage calls would all
succeed) gets no instance, so a single-task failure is not isolated to that
task. -/
theorem claim_C7_counterexample :
    ((generateUpcomingRecurringTasks countFailStore).1.tasks.any
      (fun u => u.parentTaskId == some 2)) = false ∧
    (generateUpcomingRecurringTasks countFailStore).2 = 0 ∧
    ((generateUpcomingRecurringTasks healthyStore).1.tasks.any
      (fun u => u.parentTaskId == some 2)) = true := by
  decide

/-- C7 (amended): a failure inside `createRecurringTaskInstance` (save or
notification) is caught there, so when the existence-check query does not
throw for an item, the upcoming loop always continues with the remaining
roots, having appended at most one task; but when the existence-check query
throws for an item, the pass-level catch aborts the rest of that pass. -/
theorem claim_C7_item_isolation (s : Store) (r : Task) (rest : List Task) (c : Nat) :
    (s.countFails r.id = false →
      ∃ s' k, s'.tasks = s.tasks ++ k ∧ k.length ≤ 1 ∧
        generateUpcomingLoop s (r :: rest) c = generateUpcomingLoop s' rest (c + k.length)) ∧
    (s.countFails r.id = true → generateUpcomingLoop s (r :: rest) c = (s, c)) := by
  constructor
  · intro hc
    by_cases hex : existsInstanceOnDay s.tasks r.id (calculateNextDueDate r)
    · exact ⟨s, [], by simp, by simp, by simp [generateUpcomingLoop, hc, hex]⟩
    · rcases create_cases s r with h | ⟨s1, nt, h, hts, -, -, -, -, -, -, -⟩
      · exact ⟨s, [], by simp, by simp, by simp [generateUpcomingLoop, hc, hex, h]⟩
      · exact ⟨s1, [nt], hts, by simp, by simp [generateUpcomingLoop, hc, hex, h]⟩
  · intro hc
    simp [generateUpcomingLoop, hc]

/-- C7 amended witness: with a healthy store the loop step for root 1
continues into the remaining list. -/
theorem claim_C7_item_isolation_witness :
    healthyStore.countFails dailyRootOne.id = false ∧
    (∃ s' k, s'.tasks = healthyStore.tasks ++ k ∧ k.length ≤ 1 ∧
      generateUpcomingLoop healthyStore (dailyRootOne :: [dailyRootTwo]) 0
        = generateUpcomingLoop s' [dailyRootTwo] (0 + k.length)) :=
  ⟨rfl, (claim_C7_item_isolation healthyStore dailyRootOne [dailyRootTwo] 0).1 rfl⟩

/-- C9: generation never rewrites an existing task — `createRecurringTaskInstance`
and both sweep passes only ever append to the task list, and every
pre-existing task (with all its fields, hence its computed next due date)
survives a sweep unchanged. -/
theorem claim_C9_generation_only_appends (st : Store) (p : Task) :
    (∃ l, (createRecurringTaskInstance st p).1.tasks = st.tasks ++ l) ∧
    (∃ l, (processCompletedRecurringTasks st).tasks = st.tasks ++ l) ∧
    (∃ l, (generateUpcomingRecurringTasks st).1.tasks = st.tasks ++ l) ∧
    (∀ t ∈ st.tasks, t ∈ (generationSweep st).1.tasks) := by
  have hcreate : ∃ l, (createRecurringTaskInstance st p).1.tasks = st.tasks ++ l := by
    rcases create_cases st p with h | ⟨s1, nt, h, hts, -, -, -, -, -, -, -⟩
    · exact ⟨[], by simp [h]⟩
    · exact ⟨[nt], by simp [h, hts]⟩
  have hproc : ∀ s : Store, ∃ l, (processCompletedRecurringTasks s).tasks = s.tasks ++ l := by
    intro s
    obtain ⟨l, hl, -, -, -, -⟩ :=
      foldl_create_app (s.tasks.filter (fun t => t.isRecurring && t.status == Status.completed)) s
    exact ⟨l, hl⟩
  have hup : ∀ s : Store, ∃ l, (generateUpcomingRecurringTasks s).1.tasks = s.tasks ++ l := by
    intro s
    obtain ⟨l, hl, -, -, -, -⟩ :=
      upcomingLoop_app (s.tasks.filter (fun t => t.isRecurring && t.parentTaskId == none)) s 0
    exact ⟨l, hl⟩
  refine ⟨hcreate, hproc st, hup st, ?_⟩
  intro t ht
  obtain ⟨l1, hl1⟩ := hproc st
  obtain ⟨l2, hl2⟩ := hup (processCompletedRecurringTasks st)
  unfold generationSweep
  rw [hl2, hl1]
  exact List.mem_append_left _ (List.mem_append_left _ ht)

/-- C9 witness: the root of a one-task store is still present, unchanged,
after a full sweep. -/
theorem claim_C9_generation_only_appends_witness :
    dailyNoIntervalTask ∈ singleRootStore.tasks ∧
    dailyNoIntervalTask ∈ (generationSweep singleRootStore).1.tasks :=
  ⟨by decide,
    (claim_C9_generation_only_appends singleRootStore dailyNoIntervalTask).2.2.2
      dailyNoIntervalTask (by decide)⟩

end TaskManagerPRO
